import Mathlib

/-!
Verification of the Kithscord bot's core algorithms against its
natural-language specification.  Python functions from the repository are
shallowly embedded as executable Lean definitions operating on `List Char`
(for Python `str`), `ℤ` (for Python `int`), and explicit state/trace
structures (for the async/stateful operations).  Theorems then settle the
spec claims against these definitions.
-/

/-! ## Python string primitives

Python strings are modelled as `List Char`.  The helpers below mirror the
exact semantics of the Python string operations the bot uses:
`str.splitlines` (restricted to `\n`, the only line break the bot ever
produces), `str.replace(old, "")` for the fixed pattern `"Command: "`,
`str.replace("```", ...)`, `re.search(r"\d+", s)`, `str.isdigit`, `int(s)`,
`str(n)` and slicing `s[:k]` with a possibly negative bound. -/

/-- Python `str.splitlines` for strings whose only line break is `\n`:
no trailing empty line is produced for a trailing newline, and the empty
string yields no lines. -/
def pySplitlines : List Char → List (List Char)
  | [] => []
  | c :: cs =>
    if c = '\n' then [] :: pySplitlines cs
    else
      match pySplitlines cs with
      | [] => [[c]]
      | l :: ls => (c :: l) :: ls

/-- Python slicing `s[:k]` where `k` may be negative (counts from the end,
clamped at zero). -/
def pySliceTo (s : List Char) (k : ℤ) : List Char :=
  if 0 ≤ k then s.take k.toNat else s.take (s.length - k.natAbs)

/-- Digit characters of `n` in decimal, most significant first; fuel-based
so that the kernel can evaluate it.  Empty for `n = 0` (as in the auxiliary
step of Python's `str`). -/
def natReprAux : ℕ → ℕ → List Char
  | 0, _ => []
  | fuel + 1, n =>
    if n = 0 then []
    else natReprAux fuel (n / 10) ++ [Char.ofNat (48 + n % 10)]

/-- Python `str(n)` for a non-negative integer `n`. -/
def natRepr (n : ℕ) : List Char :=
  if n = 0 then ['0'] else natReprAux n n

/-- Numeric value of a digit string: models Python `int(s)` on a string of
decimal digits. -/
def parseNat (s : List Char) : ℕ :=
  s.foldl (fun acc c => 10 * acc + (c.toNat - 48)) 0

/-- The match of Python `re.search(r"\d+", s)`: the first maximal run of
digit characters (empty exactly when `s` has no digit, i.e. no match). -/
def firstDigitRun (s : List Char) : List Char :=
  (s.dropWhile (fun c => !c.isDigit)).takeWhile (fun c => c.isDigit)

/-- Python `s.isdigit()`: nonempty and all decimal digits. -/
def pyIsDigit (s : List Char) : Bool :=
  !s.isEmpty && s.all (fun c => c.isDigit)

/-! ### Lemmas about the string primitives -/

theorem pySplitlines_append_newline (a rest : List Char) (ha : '\n' ∉ a) :
    pySplitlines (a ++ '\n' :: rest) = a :: pySplitlines rest := by
  induction a with
  | nil => simp [pySplitlines]
  | cons c cs ih =>
    have hc : c ≠ '\n' := fun h => ha (h ▸ List.mem_cons_self c cs)
    have hcs : '\n' ∉ cs := fun h => ha (List.mem_cons_of_mem c h)
    simp only [List.cons_append, pySplitlines, List.append_eq, if_neg hc, ih hcs]

theorem pySplitlines_no_newline (l : List Char) (hne : l ≠ []) (hl : '\n' ∉ l) :
    pySplitlines l = [l] := by
  induction l with
  | nil => exact absurd rfl hne
  | cons c cs ih =>
    have hc : c ≠ '\n' := fun h => hl (h ▸ List.mem_cons_self c cs)
    have hcs : '\n' ∉ cs := fun h => hl (List.mem_cons_of_mem c h)
    by_cases hnil : cs = []
    · subst hnil; simp [pySplitlines, if_neg hc]
    · simp only [pySplitlines, if_neg hc, ih hnil hcs]

theorem natReprAux_fuel (fuel n : ℕ) (h : n ≤ fuel) :
    natReprAux fuel n = natReprAux n n := by
  induction fuel using Nat.strong_induction_on generalizing n with
  | _ fuel ih =>
    match fuel, h with
    | 0, h =>
      interval_cases n
      rfl
    | fuel + 1, h =>
      by_cases hn : n = 0
      · subst hn; simp [natReprAux]
      · obtain ⟨m, rfl⟩ : ∃ m, n = m + 1 := ⟨n - 1, by omega⟩
        simp only [natReprAux, if_neg hn]
        have hdiv : (m + 1) / 10 ≤ fuel := by
          have := Nat.div_le_self (m + 1) 10
          omega
        have hdiv2 : (m + 1) / 10 ≤ m := by
          have := Nat.div_lt_self (Nat.succ_pos m) (by norm_num : 1 < 10)
          omega
        rw [ih fuel (by omega) ((m + 1) / 10) hdiv,
          ← ih m (by omega) ((m + 1) / 10) hdiv2]

theorem natReprAux_digits (fuel n : ℕ) (h : n ≤ fuel) :
    ∀ c ∈ natReprAux fuel n, c.isDigit = true := by
  induction fuel generalizing n with
  | zero => intro c hc; simp [natReprAux] at hc
  | succ fuel ih =>
    intro c hc
    by_cases hn : n = 0
    · subst hn; simp [natReprAux] at hc
    · simp only [natReprAux, if_neg hn, List.mem_append, List.mem_singleton] at hc
      rcases hc with hc | hc
      · exact ih (n / 10) (by have := Nat.div_le_self n 10; omega) c hc
      · subst hc
        have h10 : n % 10 < 10 := Nat.mod_lt n (by norm_num)
        interval_cases h : n % 10 <;> decide

theorem natRepr_digits (n : ℕ) : ∀ c ∈ natRepr n, c.isDigit = true := by
  intro c hc
  by_cases hn : n = 0
  · subst hn; simp [natRepr] at hc; subst hc; decide
  · simp only [natRepr, if_neg hn] at hc
    exact natReprAux_digits n n le_rfl c hc

theorem natReprAux_zero (fuel : ℕ) : natReprAux fuel 0 = [] := by
  cases fuel <;> simp [natReprAux]

theorem natReprAux_ne_nil (fuel n : ℕ) (h1 : 1 ≤ n) (h : n ≤ fuel) :
    natReprAux fuel n ≠ [] := by
  match fuel with
  | 0 => omega
  | fuel + 1 =>
    simp only [natReprAux, if_neg (by omega : ¬n = 0)]
    simp

theorem natRepr_ne_nil (n : ℕ) : natRepr n ≠ [] := by
  by_cases hn : n = 0
  · subst hn; simp [natRepr]
  · simp only [natRepr, if_neg hn]
    exact natReprAux_ne_nil n n (by omega) le_rfl

theorem parseNat_append_digit (s : List Char) (c : Char) :
    parseNat (s ++ [c]) = 10 * parseNat s + (c.toNat - 48) := by
  simp [parseNat, List.foldl_append]

theorem parseNat_natReprAux (fuel n : ℕ) (h1 : 1 ≤ n) (h : n ≤ fuel) :
    parseNat (natReprAux fuel n) = n := by
  induction fuel generalizing n with
  | zero => omega
  | succ fuel ih =>
    simp only [natReprAux, if_neg (by omega : ¬n = 0)]
    rw [parseNat_append_digit]
    have h10 : n % 10 < 10 := Nat.mod_lt n (by norm_num)
    have hc : (Char.ofNat (48 + n % 10)).toNat = 48 + n % 10 := by
      interval_cases h : n % 10 <;> decide
    rw [hc]
    by_cases hdiv : n / 10 = 0
    · rw [hdiv, natReprAux_zero]
      have : parseNat [] = 0 := rfl
      rw [this]
      omega
    · have hlt : n / 10 < n := Nat.div_lt_self (by omega) (by norm_num)
      rw [ih (n / 10) (by omega) (by omega)]
      omega

theorem parseNat_natRepr (n : ℕ) : parseNat (natRepr n) = n := by
  by_cases hn : n = 0
  · subst hn; decide
  · simp only [natRepr, if_neg hn]
    exact parseNat_natReprAux n n (by omega) le_rfl

theorem isDigit_ne_newline (c : Char) (h : c.isDigit = true) : c ≠ '\n' := by
  intro he; subst he; simp [Char.isDigit] at h

theorem dropWhileNotDigit_skip (a : List Char) (ha : ∀ c ∈ a, c.isDigit = false)
    (rest : List Char) :
    (a ++ rest).dropWhile (fun c => !c.isDigit) =
      rest.dropWhile (fun c => !c.isDigit) := by
  induction a with
  | nil => simp
  | cons c cs ih =>
    rw [List.cons_append, List.dropWhile_cons]
    simp only [ha c (List.mem_cons_self c cs), Bool.not_false, if_pos]
    exact ih (fun x hx => ha x (List.mem_cons_of_mem c hx))

theorem takeWhileDigit_all_stop (b : List Char) (hbd : ∀ c ∈ b, c.isDigit = true)
    (sep : Char) (hsep : sep.isDigit = false) (rest : List Char) :
    (b ++ sep :: rest).takeWhile (fun c => c.isDigit) = b := by
  induction b with
  | nil => simp [List.takeWhile_cons, hsep]
  | cons bc bs ih =>
    rw [List.cons_append, List.takeWhile_cons]
    simp only [hbd bc (List.mem_cons_self bc bs), if_pos]
    rw [ih (fun x hx => hbd x (List.mem_cons_of_mem bc hx))]

theorem firstDigitRun_extract (a b : List Char)
    (ha : ∀ c ∈ a, c.isDigit = false)
    (hb : b ≠ []) (hbd : ∀ c ∈ b, c.isDigit = true)
    (sep : Char) (hsep : sep.isDigit = false) (rest : List Char) :
    firstDigitRun (a ++ b ++ sep :: rest) = b := by
  unfold firstDigitRun
  rw [List.append_assoc, dropWhileNotDigit_skip a ha]
  match b, hb with
  | bc :: bs, _ =>
    rw [List.cons_append, List.dropWhile_cons]
    simp only [hbd bc (List.mem_cons_self bc bs), Bool.not_true, if_neg,
      Bool.false_eq_true, not_false_eq_true]
    rw [← List.cons_append]
    exact takeWhileDigit_all_stop (bc :: bs) hbd sep hsep rest

/-! ## C9: `code_block` (src/kithscord/utils/utils.py, lines 310-321)

Python source:
```
def code_block(string, max_characters=2000, code_type=""):
    string = string.replace("```", "​`​`​`​")
    len_ticks = 7 + len(code_type)
    if len(string) > max_characters - len_ticks:
        return f"```(code_type)\n(string[:max_characters - len_ticks - 4]) ...```"
    else:
        return f"```(code_type)\n(string)```"
```
(f-string braces shown as parentheses above). -/

/-- The backtick character. -/
def btick : Char := Char.ofNat 96

/-- The zero-width space character U+200B. -/
def zwsp : Char := Char.ofNat 0x200B

/-- Fuel-based scanner for Python `string.replace("```", "​`​`​`​")`:
left-to-right, non-overlapping occurrences. -/
def replaceTicksF : ℕ → List Char → List Char
  | 0, s => s
  | fuel + 1, s =>
    match s with
    | c1 :: c2 :: c3 :: rest =>
      if c1 = btick ∧ c2 = btick ∧ c3 = btick then
        zwsp :: btick :: zwsp :: btick :: zwsp :: btick :: zwsp :: replaceTicksF fuel rest
      else c1 :: replaceTicksF fuel (c2 :: c3 :: rest)
    | short => short

/-- Python `string.replace("```", "​`​`​`​")`. -/
def replaceTicks (s : List Char) : List Char := replaceTicksF s.length s

/-- The three-backtick fence. -/
def tripleTick : List Char := [btick, btick, btick]

/-- `code_block` from the source: escape inner fences, then wrap in a fenced
code block, truncating the body with a `" ..."` suffix when the fenced
result would exceed `max_characters`. -/
def code_block (s : List Char) (max_characters : ℤ) (code_type : List Char) :
    List Char :=
  let s2 := replaceTicks s
  let len_ticks : ℤ := 7 + code_type.length
  if (s2.length : ℤ) > max_characters - len_ticks then
    tripleTick ++ code_type ++ '\n' :: pySliceTo s2 (max_characters - len_ticks - 4) ++
      [' ', '.', '.', '.'] ++ tripleTick
  else
    tripleTick ++ code_type ++ '\n' :: s2 ++ tripleTick

theorem pySliceTo_length_le (s : List Char) (k : ℤ) (hk : 0 ≤ k) :
    ((pySliceTo s k).length : ℤ) ≤ k := by
  unfold pySliceTo
  rw [if_pos hk]
  have := List.length_take_le k.toNat s
  have h2 : (k.toNat : ℤ) = k := Int.toNat_of_nonneg hk
  have h3 : (s.take k.toNat).length ≤ k.toNat := List.length_take_le k.toNat s
  omega

/-- Claim C9: for every string `s` and code type `t`, with
`max_characters ≥ 11 + len(t)`, the rendered code block never exceeds
`max_characters` characters, and the result is the plain (untruncated)
fenced form exactly when that form itself fits within the limit. -/
theorem code_block_length_bound (s : List Char) (max_characters : ℤ)
    (code_type : List Char) (h : 11 + (code_type.length : ℤ) ≤ max_characters) :
    ((code_block s max_characters code_type).length : ℤ) ≤ max_characters ∧
      (code_block s max_characters code_type =
          tripleTick ++ code_type ++ '\n' :: replaceTicks s ++ tripleTick ↔
        (7 + code_type.length + (replaceTicks s).length : ℤ) ≤ max_characters) := by
  unfold code_block
  set s2 := replaceTicks s with hs2
  set lt : ℤ := 7 + code_type.length with hlt
  by_cases hcond : (s2.length : ℤ) > max_characters - lt
  · rw [if_pos hcond]
    have hk : (0 : ℤ) ≤ max_characters - lt - 4 := by omega
    have hslice := pySliceTo_length_le s2 (max_characters - lt - 4) hk
    have hlen1 : (tripleTick ++ code_type ++ '\n' ::
        pySliceTo s2 (max_characters - lt - 4) ++ [' ', '.', '.', '.'] ++
          tripleTick).length =
        code_type.length + (pySliceTo s2 (max_characters - lt - 4)).length + 11 := by
      simp only [List.length_append, List.length_cons, tripleTick]
      simp
      omega
    have hlen2 : (tripleTick ++ code_type ++ '\n' :: s2 ++ tripleTick).length =
        code_type.length + s2.length + 7 := by
      simp only [List.length_append, List.length_cons, tripleTick]
      simp
      omega
    constructor
    · rw [hlen1]
      push_cast
      omega
    · constructor
      · intro heq
        have hlen := congrArg List.length heq
        rw [hlen1, hlen2] at hlen
        omega
      · intro hfit
        omega
  · rw [if_neg hcond]
    have hlen2 : (tripleTick ++ code_type ++ '\n' :: s2 ++ tripleTick).length =
        code_type.length + s2.length + 7 := by
      simp only [List.length_append, List.length_cons, tripleTick]
      simp
      omega
    constructor
    · rw [hlen2]
      push_cast
      omega
    · constructor
      · intro _
        omega
      · intro _
        rfl

/-- Witness for C9 at a concrete input: `s = "hello"`, limit 20, type `"py"`. -/
theorem code_block_length_bound_witness :
    ((code_block "hello".data 20 "py".data).length : ℤ) ≤ 20 ∧
      (code_block "hello".data 20 "py".data =
          tripleTick ++ "py".data ++ '\n' :: replaceTicks "hello".data ++ tripleTick ↔
        (7 + ("py".data).length + (replaceTicks "hello".data).length : ℤ) ≤ 20) :=
  code_block_length_bound "hello".data 20 "py".data (by decide)

/-! ## C10: `handle_message` command-log eviction (src/kithscord/__init__.py,
lines 95-107)

`common.cmd_logs` is a Python `dict` (insertion-ordered).  It is modelled
as an association list: setting an existing key updates it in place,
setting a new key appends, and `del d[list(d)[0]]` removes the entry with
the first key in iteration order, i.e. the head. -/

/-- The command-log mapping: invoke-message id to response-message id, in
insertion order (Python `dict` semantics). -/
abbrev CmdLogs := List (ℕ × ℕ)

/-- Python `d[k] = v` on an insertion-ordered dict: update in place if the
key exists, else append. -/
def dictSet (logs : CmdLogs) (k v : ℕ) : CmdLogs :=
  if logs.any (fun p => p.1 = k) then
    logs.map (fun p => if p.1 = k then (k, v) else p)
  else logs ++ [(k, v)]

/-- Python `del d[list(d)[0]]`: delete the entry carrying the first key in
iteration order. -/
def dictDelOldest (logs : CmdLogs) : CmdLogs :=
  match logs with
  | [] => []
  | p :: _ => logs.eraseP (fun q => q.1 = p.1)

/-- `handle_message` from the source, restricted to its effect on
`common.cmd_logs`: ignore messages without the command prefix, record the
response for handled commands, and evict the first-inserted entry when the
log exceeds 100 entries. -/
def handle_message (startsWithPrefix : Bool) (msgId : ℕ) (ret : Option ℕ)
    (logs : CmdLogs) : CmdLogs :=
  if !startsWithPrefix then logs
  else
    let logs2 := match ret with
      | some r => dictSet logs msgId r
      | none => logs
    if logs2.length > 100 then dictDelOldest logs2 else logs2

theorem dictSet_length (logs : CmdLogs) (k v : ℕ) :
    (dictSet logs k v).length ≤ logs.length + 1 := by
  unfold dictSet
  split
  · simp
  · simp

theorem dictDelOldest_length_cons (p : ℕ × ℕ) (rest : CmdLogs) :
    dictDelOldest (p :: rest) = rest := by
  have h : dictDelOldest (p :: rest) =
      (p :: rest).eraseP (fun q => decide (q.1 = p.1)) := rfl
  rw [h, List.eraseP_cons_of_pos (by simp)]

/-- Claim C10: if `common.cmd_logs` holds at most 100 entries before a call
to `handle_message`, it holds at most 100 entries afterwards; and when
recording the new response pushes the count above 100, the evicted entry is
exactly the oldest (first-inserted) one, i.e. the updated log is the tail
of the over-full dict. -/
theorem handle_message_log_bound (startsWithPrefix : Bool) (msgId : ℕ)
    (ret : Option ℕ) (logs : CmdLogs) (hbound : logs.length ≤ 100) :
    (handle_message startsWithPrefix msgId ret logs).length ≤ 100 ∧
      (∀ r, startsWithPrefix = true → ret = some r →
        (dictSet logs msgId r).length > 100 →
        handle_message startsWithPrefix msgId ret logs =
          (dictSet logs msgId r).tail) := by
  cases startsWithPrefix with
  | false =>
    refine ⟨by simpa [handle_message] using hbound, ?_⟩
    intro r hpre _ _
    exact absurd hpre (by simp)
  | true =>
    cases ret with
    | none =>
      refine ⟨?_, ?_⟩
      · have hh : handle_message true msgId none logs =
            if logs.length > 100 then dictDelOldest logs else logs := rfl
        rw [hh, if_neg (by omega)]
        exact hbound
      · intro r _ hret
        exact absurd hret (by simp)
    | some v =>
      have hh : handle_message true msgId (some v) logs =
          if (dictSet logs msgId v).length > 100 then
            dictDelOldest (dictSet logs msgId v)
          else dictSet logs msgId v := rfl
      refine ⟨?_, ?_⟩
      · rw [hh]
        by_cases hgt : (dictSet logs msgId v).length > 100
        · rw [if_pos hgt]
          have hle := dictSet_length logs msgId v
          match hds : dictSet logs msgId v with
          | [] => rw [hds] at hgt; simp at hgt
          | p :: rest =>
            rw [hds] at hle
            rw [dictDelOldest_length_cons]
            simp only [List.length_cons] at hle
            omega
        · rw [if_neg hgt]
          omega
      · intro r _ hret hgt
        have hrv : v = r := by injection hret
        subst hrv
        rw [hh, if_pos hgt]
        match hds : dictSet logs msgId v with
        | [] => rw [hds] at hgt; simp at hgt
        | p :: rest => rw [dictDelOldest_length_cons, List.tail_cons]

/-- Witness for C10 at a concrete input: a one-entry log, prefix present,
a new response recorded. -/
theorem handle_message_log_bound_witness :
    (handle_message true 5 (some 9) [(1, 2)]).length ≤ 100 ∧
      (∀ r, true = true → (some 9 : Option ℕ) = some r →
        (dictSet [(1, 2)] 5 r).length > 100 →
        handle_message true 5 (some 9) [(1, 2)] = (dictSet [(1, 2)] 5 r).tail) :=
  handle_message_log_bound true 5 (some 9) [(1, 2)] (by decide)

/-! ## C3 and C4: paged-embed footers and `cmd_refresh`
(src/kithscord/utils/embed_utils.py lines 304-312,
src/kithscord/commands/user.py lines 107-152)

`PagedEmbed.get_footer_text` renders the footer of page `page_num`;
`UserCommand.cmd_refresh` re-parses such a footer to rebuild the session.
The fixed string pieces of the footer are modelled verbatim. -/

/-- The string `"Page "`. -/
def pageWord : List Char := "Page ".data

/-- The string `" of "`. -/
def ofWord : List Char := " of ".data

/-- The refresh hint line of a refreshable footer. -/
def refreshLine : List Char :=
  "Refresh by replying to this message with `kh!refresh`".data

/-- The marker `"Command: "` that starts the third footer line. -/
def cmdMarker : List Char := "Command: ".data

/-- Fuel-based scanner for Python `third_line.replace("Command: ", "")`:
remove every (left-to-right, non-overlapping) occurrence of the marker. -/
def removeCmdMarkerF : ℕ → List Char → List Char
  | 0, s => s
  | _ + 1, [] => []
  | fuel + 1, c :: cs =>
    if cmdMarker.isPrefixOf (c :: cs) then removeCmdMarkerF fuel ((c :: cs).drop 9)
    else c :: removeCmdMarkerF fuel cs

/-- Python `s.replace("Command: ", "")`. -/
def removeCmdMarker (s : List Char) : List Char := removeCmdMarkerF s.length s

/-- `PagedEmbed.get_footer_text`: page indicator line, then (for refreshable
sessions, i.e. a truthy `parent_command`) the refresh hint line and the
`Command: ` line. -/
def get_footer_text (numPages : ℕ) (parent_command : Option (List Char))
    (page_num : ℕ) : List Char :=
  let footer := pageWord ++ natRepr (page_num + 1) ++ ofWord ++ natRepr numPages ++
    ['.', '\n']
  match parent_command with
  | some cmd =>
    if cmd.isEmpty then footer
    else footer ++ refreshLine ++ '\n' :: (cmdMarker ++ cmd)
  | none => footer

/-- Result of `cmd_refresh` on a message footer: the declared
"Message does not support pages" `BotException`, an uncaught `IndexError`
(from evaluating `data[2]` on a footer with fewer than three lines), or a
re-dispatch of the embedded command at the embedded page. -/
inductive RefreshOutcome
  | pagesError
  | indexError
  | redispatch (page : ℤ) (command : List Char)
deriving DecidableEq

/-- The page/command extraction of `cmd_refresh` after the line checks:
`re.search` for the first digit run of the first line, `str.replace` on the
third line, the `isdigit`/emptiness guard, then `int(page) - 1`. -/
def refreshParsePage (line0 third : List Char) : RefreshOutcome :=
  let digitsRun := firstDigitRun line0
  if digitsRun.isEmpty then .pagesError
  else
    let command_str := removeCmdMarker third
    if !pyIsDigit digitsRun || command_str.isEmpty then .pagesError
    else .redispatch ((parseNat digitsRun : ℤ) - 1) command_str

/-- `UserCommand.cmd_refresh`, restricted to its footer validation and
parsing.  The input is the footer text of the referenced message's first
embed (`none` when there is no embed, no footer, or a non-string footer
text).  Mirrors the source's left-to-right evaluation of
`len(data) != 3 and not data[2].startswith("Command: ")`, including the
`IndexError` that `data[2]` raises on a footer of fewer than three
lines. -/
def cmd_refresh (footerText : Option (List Char)) : RefreshOutcome :=
  match footerText with
  | none => .pagesError
  | some footer =>
    let data := pySplitlines footer
    if data.length ≠ 3 then
      match data[2]? with
      | none => .indexError
      | some third =>
        if cmdMarker.isPrefixOf third then refreshParsePage (data.headD []) third
        else .pagesError
    else
      match data[0]?, data[2]? with
      | some line0, some third => refreshParsePage line0 third
      | _, _ => .indexError

/-- Claim C3 fails on the code: the source guard uses `and` where the spec
demands `or`.  A four-line footer whose third line carries the
`Command: ` marker passes the guard and is re-dispatched instead of raising
the declared error; and a two-line footer raises an uncaught `IndexError`
instead of the declared error. -/
theorem cmd_refresh_validation_bug :
    cmd_refresh (some ("Page 1 of 2.\nRefresh by replying to this message with `kh!refresh`\nCommand: help\nextra").data) =
        RefreshOutcome.redispatch 0 "help".data ∧
      cmd_refresh (some ("Page 1 of 2.\nCommand: help").data) =
        RefreshOutcome.indexError := by
  constructor
  · rfl
  · rfl

/-! ### Lemmas for the C4 round trip -/

theorem removeCmdMarkerF_fuel (fuel : ℕ) : ∀ (fuel' : ℕ) (s : List Char),
    s.length ≤ fuel → s.length ≤ fuel' →
    removeCmdMarkerF fuel s = removeCmdMarkerF fuel' s := by
  induction fuel with
  | zero =>
    intro fuel' s h _
    have hs : s = [] := List.eq_nil_of_length_eq_zero (by omega)
    subst hs
    cases fuel' <;> rfl
  | succ fuel ih =>
    intro fuel' s h h'
    cases s with
    | nil => cases fuel' <;> rfl
    | cons c cs =>
      cases fuel' with
      | zero => simp at h'
      | succ fuel' =>
        simp only [removeCmdMarkerF]
        by_cases hp : cmdMarker.isPrefixOf (c :: cs) = true
        · rw [if_pos hp, if_pos hp]
          apply ih
          · simp only [List.length_drop, List.length_cons]
            simp only [List.length_cons] at h
            omega
          · simp only [List.length_drop, List.length_cons]
            simp only [List.length_cons] at h'
            omega
        · rw [if_neg hp, if_neg hp]
          have hcs : cs.length ≤ fuel := by
            simp only [List.length_cons] at h; omega
          have hcs' : cs.length ≤ fuel' := by
            simp only [List.length_cons] at h'; omega
          rw [ih fuel' cs hcs hcs']

theorem removeCmdMarker_append_marker (l : List Char) :
    removeCmdMarker (cmdMarker ++ l) = removeCmdMarker l := by
  have hpre : cmdMarker.isPrefixOf (cmdMarker ++ l) = true := by
    simp [cmdMarker, List.isPrefixOf]
  have hcons : cmdMarker ++ l =
      'C' :: (['o', 'm', 'm', 'a', 'n', 'd', ':', ' '] ++ l) := rfl
  have hdrop : (('C' : Char) :: (['o', 'm', 'm', 'a', 'n', 'd', ':', ' '] ++ l)).drop 9
      = l := rfl
  have hlen : (cmdMarker ++ l).length = l.length + 9 := by simp [cmdMarker]
  unfold removeCmdMarker
  rw [hlen, show l.length + 9 = (l.length + 8) + 1 from rfl]
  rw [hcons] at hpre ⊢
  simp only [removeCmdMarkerF, hpre, if_pos, hdrop]
  exact removeCmdMarkerF_fuel (l.length + 8) l.length l (by omega) le_rfl

theorem removeCmdMarker_nil : removeCmdMarker [] = [] := rfl

theorem cmd_refresh_three_lines (footer l0 l1 l2 : List Char)
    (hsplit : pySplitlines footer = [l0, l1, l2]) :
    cmd_refresh (some footer) = refreshParsePage l0 l2 := by
  unfold cmd_refresh
  simp [hsplit]

/-- Claim C4: the footer rendered for page `k` of an `N`-page refreshable
session begins with the text `Page k+1 of N.`, and feeding that footer
through `cmd_refresh`'s parsing re-dispatches the embedded command at
start page `int(k+1) - 1 = k`. -/
theorem footer_refresh_roundtrip (k N : ℕ) (cmd : List Char)
    (hnl : '\n' ∉ cmd) (hne : removeCmdMarker cmd ≠ []) :
    (∃ rest, get_footer_text N (some cmd) k =
      (pageWord ++ natRepr (k + 1) ++ ofWord ++ natRepr N ++ ['.']) ++ rest) ∧
      cmd_refresh (some (get_footer_text N (some cmd) k)) =
        RefreshOutcome.redispatch (k : ℤ) (removeCmdMarker cmd) := by
  have hcmdne : cmd ≠ [] := by
    intro hnil
    rw [hnil, removeCmdMarker_nil] at hne
    exact hne rfl
  have hfooter : get_footer_text N (some cmd) k =
      (pageWord ++ natRepr (k + 1) ++ ofWord ++ natRepr N ++ ['.']) ++
        '\n' :: (refreshLine ++ '\n' :: (cmdMarker ++ cmd)) := by
    simp only [get_footer_text, List.isEmpty_iff, if_neg hcmdne]
    simp [List.append_assoc]
  set line0 : List Char := pageWord ++ natRepr (k + 1) ++ ofWord ++ natRepr N ++ ['.']
    with hline0def
  refine ⟨⟨'\n' :: (refreshLine ++ '\n' :: (cmdMarker ++ cmd)), hfooter⟩, ?_⟩
  have hl0 : '\n' ∉ line0 := by
    rw [hline0def]
    simp only [List.mem_append, List.mem_singleton]
    rintro ((((h | h) | h) | h) | h)
    · revert h; decide
    · exact isDigit_ne_newline _ (natRepr_digits (k + 1) _ h) rfl
    · revert h; decide
    · exact isDigit_ne_newline _ (natRepr_digits N _ h) rfl
    · revert h; decide
  have hl1 : '\n' ∉ refreshLine := by decide
  have hl2 : '\n' ∉ cmdMarker ++ cmd := by
    simp only [List.mem_append]
    rintro (h | h)
    · revert h; decide
    · exact hnl h
  have hl2ne : cmdMarker ++ cmd ≠ [] := by simp [cmdMarker]
  have hsplit : pySplitlines (get_footer_text N (some cmd) k) =
      [line0, refreshLine, cmdMarker ++ cmd] := by
    rw [hfooter, pySplitlines_append_newline _ _ hl0,
      pySplitlines_append_newline _ _ hl1, pySplitlines_no_newline _ hl2ne hl2]
  have hrun : firstDigitRun line0 = natRepr (k + 1) := by
    rw [hline0def]
    have hassoc : pageWord ++ natRepr (k + 1) ++ ofWord ++ natRepr N ++ ['.'] =
        pageWord ++ natRepr (k + 1) ++ ' ' ::
          (['o', 'f', ' '] ++ natRepr N ++ ['.']) := by
      simp [ofWord, List.append_assoc]
    rw [hassoc]
    exact firstDigitRun_extract pageWord (natRepr (k + 1)) (by decide)
      (natRepr_ne_nil (k + 1)) (natRepr_digits (k + 1)) ' ' (by decide) _
  have hparse : refreshParsePage line0 (cmdMarker ++ cmd) =
      RefreshOutcome.redispatch (k : ℤ) (removeCmdMarker cmd) := by
    unfold refreshParsePage
    rw [hrun]
    rw [if_neg (by simp [List.isEmpty_iff, natRepr_ne_nil (k + 1)])]
    have hdig : pyIsDigit (natRepr (k + 1)) = true := by
      unfold pyIsDigit
      simp only [Bool.and_eq_true, Bool.not_eq_true', List.isEmpty_iff,
        List.all_eq_true]
      exact ⟨by simpa using natRepr_ne_nil (k + 1), natRepr_digits (k + 1)⟩
    rw [removeCmdMarker_append_marker]
    rw [if_neg (by simp [hdig, List.isEmpty_iff, hne])]
    rw [parseNat_natRepr]
    congr 1
    push_cast
    ring
  rw [cmd_refresh_three_lines _ _ _ _ hsplit]
  exact hparse

/-- Witness for C4 at a concrete input: page 1 (0-based) of a 3-page
session for the command `help`. -/
theorem footer_refresh_roundtrip_witness :
    (∃ rest, get_footer_text 3 (some "help".data) 1 =
      (pageWord ++ natRepr 2 ++ ofWord ++ natRepr 3 ++ ['.']) ++ rest) ∧
      cmd_refresh (some (get_footer_text 3 (some "help".data) 1)) =
        RefreshOutcome.redispatch 1 (removeCmdMarker "help".data) :=
  footer_refresh_roundtrip 1 3 "help".data (by decide) (by decide)

/-! ## C5: `PagedEmbed.check` authorization
(src/kithscord/utils/embed_utils.py, lines 314-337)

The check receives a raw reaction event; it returns `False` for foreign
messages and bot actors, raises the DM error when the event has no member,
and — only when `self.caller` is truthy — accepts explicit allow-list
members or admin-role holders.  Python's implicit `return None` is modelled
as `ret none`. -/

/-- A guild member as seen by the check: id, bot flag, role ids. -/
structure GuildMember where
  id : ℕ
  bot : Bool
  roles : List ℕ
deriving DecidableEq

/-- A `raw_reaction_add` event: message id, acting user id, and the member
object (absent in DMs). -/
structure ReactionEvent where
  message_id : ℕ
  user_id : ℕ
  member : Option GuildMember
deriving DecidableEq

/-- Result of `PagedEmbed.check`: a returned value (`some true`,
`some false`, or Python's implicit `None`), or the raised
"Paged embeds are not supported in DMs." error. -/
inductive CheckOutcome
  | ret (val : Option Bool)
  | dmError
deriving DecidableEq

/-- `PagedEmbed.check`.  `caller` is `self.caller`: `none` when the session
was created with `caller=None`, otherwise the tuple of allowed members
(`if self.caller:` is falsy for both `None` and the empty tuple).  The
source's `not False and role.id in common.ADMIN_ROLES` is just the
role-membership test. -/
def PagedEmbed.check (sessionMessageId : ℕ) (caller : Option (List GuildMember))
    (adminRoles : List ℕ) (event : ReactionEvent) : CheckOutcome :=
  if event.message_id ≠ sessionMessageId then .ret (some false)
  else
    match event.member with
    | none => .dmError
    | some mem =>
      if mem.bot then .ret (some false)
      else
        match caller with
        | none => .ret none
        | some members =>
          if members.isEmpty then .ret none
          else if members.any (fun m => m.id = event.user_id) then .ret (some true)
          else if mem.roles.any (fun r => adminRoles.contains r) then .ret (some true)
          else .ret none

/-- Claim C5 fails on the code: for a session created with `caller=None`
(the "anyone" sentinel per the constructor docstring), a non-bot,
non-admin member reacting on the session's own message is silently
dropped (`check` falls off the end and returns `None`), because the
`if self.caller:` guard skips the whole acceptance block; the claim says
such an event must be accepted. -/
theorem paged_check_anyone_sentinel_bug :
    PagedEmbed.check 1 none [840365746676432956]
        { message_id := 1, user_id := 5,
          member := some { id := 5, bot := false, roles := [] } } =
      CheckOutcome.ret none ∧
      CheckOutcome.ret none ≠ CheckOutcome.ret (some true) :=
  ⟨rfl, by decide⟩

/-! ## C6: `PagedEmbed` navigation wraparound
(src/kithscord/utils/embed_utils.py, lines 242-260 and 274-278)

The state of a paged session: page count (the page contents are irrelevant
to navigation), 0-based current page, info-overlay flag, kill flag.
`set_page` stores modulo the page count (Python `%`, which is the
Euclidean `Int.emod` for a positive modulus); `handle_reaction` is the
source's sequence of non-exclusive `if` comparisons against the control
emojis configured at construction time. -/

structure PagedState where
  pages : ℕ
  current_page : ℤ
  is_on_info : Bool
  killed : Bool
deriving DecidableEq

/-- Control emoji for "next". -/
def nextEmoji : String := "▶️"

/-- Control emoji for "prev". -/
def prevEmoji : String := "◀️"

/-- Control emoji for "stop". -/
def stopEmoji : String := "⏹️"

/-- Control emoji for "info". -/
def infoEmoji : String := "ℹ️"

/-- Control emoji for "first": only configured when the session has at
least 3 pages, else the empty placeholder. -/
def firstEmoji (numPages : ℕ) : String := if 3 ≤ numPages then "⏪" else ""

/-- Control emoji for "last": only configured when the session has at
least 3 pages, else the empty placeholder. -/
def lastEmoji (numPages : ℕ) : String := if 3 ≤ numPages then "⏩" else ""

/-- `PagedEmbed.set_page`: leave the info overlay and store the requested
page modulo the page count. -/
def set_page (s : PagedState) (num : ℤ) : PagedState :=
  { s with is_on_info := false, current_page := num % (s.pages : ℤ) }

/-- `PagedEmbed.show_info_page`: toggle the info overlay. -/
def show_info_page (s : PagedState) : PagedState :=
  { s with is_on_info := !s.is_on_info }

/-- `PagedEmbed.handle_reaction`: the source's six sequential `if`
comparisons of the reaction string against the configured control
emojis. -/
def handle_reaction (s : PagedState) (reaction : String) : PagedState :=
  let s1 := if reaction = nextEmoji then set_page s (s.current_page + 1) else s
  let s2 := if reaction = prevEmoji then set_page s1 (s1.current_page - 1) else s1
  let s3 := if reaction = firstEmoji s.pages then set_page s2 0 else s2
  let s4 := if reaction = lastEmoji s.pages then set_page s3 ((s.pages : ℤ) - 1) else s3
  let s5 := if reaction = stopEmoji then { s4 with killed := true } else s4
  if reaction = infoEmoji then show_info_page s5 else s5

theorem neg_one_emod_pos (n : ℤ) (h : 1 ≤ n) : (-1) % n = n - 1 := by
  have h1 : ((-1 : ℤ) + n * 1) % n = (-1) % n := Int.add_mul_emod_self_left (-1) n 1
  have h2 : ((-1 : ℤ) + n * 1) = n - 1 := by ring
  rw [h2] at h1
  rw [← h1, Int.emod_eq_of_lt (by omega) (by omega)]

/-- Claim C6: for a session with `N ≥ 1` pages, `prev` from page 0 lands
on page `N - 1`, `next` from page `N - 1` lands on page 0, `set_page`
always stores its argument modulo `N`, and every reaction keeps
`current_page` inside `[0, N)`. -/
theorem paged_navigation_wraparound (s : PagedState) (hN : 1 ≤ s.pages) :
    (s.current_page = 0 →
      (handle_reaction s prevEmoji).current_page = (s.pages : ℤ) - 1) ∧
      (s.current_page = (s.pages : ℤ) - 1 →
        (handle_reaction s nextEmoji).current_page = 0) ∧
      (∀ num : ℤ, (set_page s num).current_page = num % (s.pages : ℤ)) ∧
      (∀ reaction : String, 0 ≤ s.current_page → s.current_page < (s.pages : ℤ) →
        0 ≤ (handle_reaction s reaction).current_page ∧
          (handle_reaction s reaction).current_page < (s.pages : ℤ)) := by
  have hpos : (0 : ℤ) < (s.pages : ℤ) := by exact_mod_cast hN
  have hne0 : (s.pages : ℤ) ≠ 0 := by omega
  have hpf : ¬(prevEmoji = firstEmoji s.pages) := by
    unfold prevEmoji firstEmoji; split <;> decide
  have hpl : ¬(prevEmoji = lastEmoji s.pages) := by
    unfold prevEmoji lastEmoji; split <;> decide
  have hnf : ¬(nextEmoji = firstEmoji s.pages) := by
    unfold nextEmoji firstEmoji; split <;> decide
  have hnl : ¬(nextEmoji = lastEmoji s.pages) := by
    unfold nextEmoji lastEmoji; split <;> decide
  refine ⟨?_, ?_, ?_, ?_⟩
  · intro h0
    unfold handle_reaction
    simp only [if_neg (by decide : ¬(prevEmoji = nextEmoji)),
      if_pos (show prevEmoji = prevEmoji from rfl), if_neg hpf, if_neg hpl,
      if_neg (by decide : ¬(prevEmoji = stopEmoji)),
      if_neg (by decide : ¬(prevEmoji = infoEmoji)), set_page, h0]
    rw [show ((0 : ℤ) - 1) = -1 by ring]
    exact neg_one_emod_pos _ (by omega)
  · intro h0
    unfold handle_reaction
    simp only [if_pos (show nextEmoji = nextEmoji from rfl),
      if_neg (by decide : ¬(nextEmoji = prevEmoji)), if_neg hnf, if_neg hnl,
      if_neg (by decide : ¬(nextEmoji = stopEmoji)),
      if_neg (by decide : ¬(nextEmoji = infoEmoji)), set_page, h0]
    rw [show (s.pages : ℤ) - 1 + 1 = (s.pages : ℤ) by ring, Int.emod_self]
    simp
  · intro num
    rfl
  · intro reaction h0 hlt
    unfold handle_reaction
    split_ifs <;>
      simp only [set_page, show_info_page] <;>
      first
        | exact ⟨h0, hlt⟩
        | exact ⟨Int.emod_nonneg _ hne0, Int.emod_lt_of_pos _ hpos⟩

/-- A concrete 3-page session on page 0, used by the C6 witness. -/
def demoPagedState : PagedState :=
  { pages := 3, current_page := 0, is_on_info := false, killed := false }

/-- Witness for C6 at a concrete state: a 3-page session on page 0. -/
theorem paged_navigation_wraparound_witness :
    (demoPagedState.current_page = 0 →
      (handle_reaction demoPagedState prevEmoji).current_page =
        (demoPagedState.pages : ℤ) - 1) ∧
      (demoPagedState.current_page = (demoPagedState.pages : ℤ) - 1 →
        (handle_reaction demoPagedState nextEmoji).current_page = 0) ∧
      (∀ num : ℤ, (set_page demoPagedState num).current_page =
        num % (demoPagedState.pages : ℤ)) ∧
      (∀ reaction : String, 0 ≤ demoPagedState.current_page →
        demoPagedState.current_page < (demoPagedState.pages : ℤ) →
        0 ≤ (handle_reaction demoPagedState reaction).current_page ∧
          (handle_reaction demoPagedState reaction).current_page <
            (demoPagedState.pages : ℤ)) :=
  paged_navigation_wraparound demoPagedState (by decide)

/-! ## C1: `pull_kithare` single-flight guard
(src/kithscord/utils/utils.py, lines 111-183)

The pull operation is modelled as a trace of the events it performs, in
program order, together with its result and the final value of the
module-level `is_pulling` flag.  `await` points of the body (the embed
edits and the network fetch) are explicit events, so "the flag is set
before the first suspension point" is a statement about trace order.  The
oracle fixes the outcome of every fallible step, covering the declared
error paths and arbitrary exceptions (`raised`). -/

/-- Observable steps of `pull_kithare`, in program order. -/
inductive PullEvent
  | setFlag (v : Bool)
  | awaitEmbedReplace
  | rmtreeDest
  | awaitFetch
  | extractTemp
  | findInstaller
  | extractDest
  | chmodFiles
  | rmtreeTemp
deriving DecidableEq

/-- Result of `pull_kithare`: normal return, one of the declared
`BotException`s, or any other exception propagating out of the body. -/
inductive PullResult
  | ok
  | alreadyPulling
  | fetchFailed
  | noMatchingPackage
  | raised
deriving DecidableEq

/-- Outcomes of the fallible steps of a pull: whether a progress message
was supplied, whether each awaited step raises, whether the fetched
response has the zip content type, and whether an installer for the host
machine exists in the fetched archive. -/
structure PullOracle where
  hasResponse : Bool
  replaceRaises : Bool
  fetchRaises : Bool
  fetchContentTypeOk : Bool
  installerFound : Bool
  extractDestRaises : Bool
  finalReplaceRaises : Bool

/-- The body of `pull_kithare` (the `try:` block, lines 128-179): optional
progress embed, clear the destination, fetch the workflow archive, extract
it into the staging dir, locate and extract the machine-specific
installer, fix permissions, optional success embed. -/
def pullBody (o : PullOracle) : PullResult × List PullEvent :=
  let e1 : List PullEvent := if o.hasResponse then [.awaitEmbedReplace] else []
  if o.hasResponse ∧ o.replaceRaises then (.raised, e1)
  else
    let e2 := e1 ++ [.rmtreeDest, .awaitFetch]
    if o.fetchRaises then (.raised, e2)
    else if !o.fetchContentTypeOk then (.fetchFailed, e2)
    else
      let e3 := e2 ++ [.extractTemp, .findInstaller]
      if !o.installerFound then (.noMatchingPackage, e3)
      else
        let e4 := e3 ++ [.extractDest]
        if o.extractDestRaises then (.raised, e4)
        else
          let e5 := e4 ++ [.chmodFiles] ++
            (if o.hasResponse then [.awaitEmbedReplace] else [])
          if o.hasResponse ∧ o.finalReplaceRaises then (.raised, e5)
          else (.ok, e5)

/-- `pull_kithare`: fail fast with the declared "Pull failed!" error while
another pull is in flight (performing nothing), otherwise set the flag,
run the body, and - in the `finally:` block, on every exit path - remove
the staging directory `tempdir` and reset the flag. -/
def pull_kithare (is_pulling : Bool) (o : PullOracle) :
    PullResult × List PullEvent × Bool :=
  if is_pulling then (.alreadyPulling, [], is_pulling)
  else
    let body := pullBody o
    (body.1,
      PullEvent.setFlag true :: body.2 ++ [PullEvent.rmtreeTemp, PullEvent.setFlag false],
      false)

/-- Claim C1: a pull that begins while another is in flight fails fast
with the declared error, performing no events (so neither the destination
directory nor the flag is touched); a pull that proceeds emits
`setFlag true` as its very first event (before any suspension point), and
on every exit path - success, a declared error, or any other exception -
its trace ends by removing `tempdir` and resetting the flag, and the flag
is left `false`. -/
theorem pull_kithare_single_flight (o : PullOracle) :
    pull_kithare true o = (PullResult.alreadyPulling, [], true) ∧
      (pull_kithare false o).2.1.head? = some (PullEvent.setFlag true) ∧
      (∃ pre, (pull_kithare false o).2.1 =
        pre ++ [PullEvent.rmtreeTemp, PullEvent.setFlag false]) ∧
      (pull_kithare false o).2.2 = false ∧
      (pull_kithare false o).1 ≠ PullResult.alreadyPulling := by
  refine ⟨rfl, rfl, ⟨PullEvent.setFlag true :: (pullBody o).2, by
    simp [pull_kithare]⟩, rfl, ?_⟩
  show (pullBody o).1 ≠ PullResult.alreadyPulling
  unfold pullBody
  split_ifs <;> simp

/-! ## C2: `run_kcr` retry-once semantics
(src/kithscord/utils/utils.py, lines 194-220)

`run_kcr` polls while a pull is in flight, executes the tool binary, and
on `FileNotFoundError` either awaits `pull_kithare()` once and retries
with `recurse=False`, or (when already retrying) raises the declared
terminal error.  The subprocess outcome of the `n`-th execution attempt
and the number of poll iterations before it are given by oracles.  The
awaited pull is the `pull_kithare` model above, so it can raise (one of
its declared `BotException`s or any other exception); in that case its
exception propagates out of `run_kcr` and no re-execution happens. -/

/-- Outcome of one `subprocess.run` of the tool binary: normal completion,
`FileNotFoundError`, or `subprocess.TimeoutExpired` (the latter is not
caught and propagates). -/
inductive ExecOut
  | ok
  | notFound
  | timeoutExpired
deriving DecidableEq

/-- Observable steps of `run_kcr`. -/
inductive RunEvent
  | sleepPoll
  | execAttempt
  | pullTriggered
deriving DecidableEq

/-- Result of `run_kcr`: the captured stdout, the declared terminal
"Could not execute Kithare command!" error, a propagated subprocess
timeout, or an exception propagated out of the awaited `pull_kithare`
(carrying that pull's non-`ok` result). -/
inductive KcrResult
  | output
  | toolMissingError
  | timeoutError
  | pullRaised (e : PullResult)
deriving DecidableEq

/-- `run_kcr`: `execOut n` is the outcome of the `n`-th execution attempt
and `pollTicks n` the number of `asyncio.sleep` iterations of the
`while is_pulling` loop before it.  On `FileNotFoundError` with
`recurse=True`, `await pull_kithare()` - the model above, with in-flight
flag `pullFlag` and oracle `po` - and, only if the pull returns normally,
retry once with `recurse=False`; if the pull raises, its exception
propagates and no retry happens.  With `recurse=False`, fail with the
terminal error. -/
def run_kcr (execOut : ℕ → ExecOut) (pollTicks : ℕ → ℕ) (pullFlag : Bool)
    (po : PullOracle) : Bool → ℕ → KcrResult × List RunEvent
  | true, n =>
    let waits := List.replicate (pollTicks n) RunEvent.sleepPoll
    match execOut n with
    | .ok => (.output, waits ++ [.execAttempt])
    | .timeoutExpired => (.timeoutError, waits ++ [.execAttempt])
    | .notFound =>
      let pull := pull_kithare pullFlag po
      if pull.1 = PullResult.ok then
        let r := run_kcr execOut pollTicks pullFlag po false (n + 1)
        (r.1, waits ++ [.execAttempt, .pullTriggered] ++ r.2)
      else (.pullRaised pull.1, waits ++ [.execAttempt, .pullTriggered])
  | false, n =>
    let waits := List.replicate (pollTicks n) RunEvent.sleepPoll
    match execOut n with
    | .ok => (.output, waits ++ [.execAttempt])
    | .timeoutExpired => (.timeoutError, waits ++ [.execAttempt])
    | .notFound => (.toolMissingError, waits ++ [.execAttempt])
termination_by b n => if b then 1 else 0
decreasing_by simp

/-- A pull oracle on which the pull completes normally. -/
def okPullOracle : PullOracle :=
  { hasResponse := false, replaceRaises := false, fetchRaises := false,
    fetchContentTypeOk := true, installerFound := true,
    extractDestRaises := false, finalReplaceRaises := false }

/-- A pull oracle whose fetched response is not a zip archive, so the pull
raises its declared "Could not install Kithare!" error. -/
def fetchFailOracle : PullOracle :=
  { hasResponse := false, replaceRaises := false, fetchRaises := false,
    fetchContentTypeOk := false, installerFound := false,
    extractDestRaises := false, finalReplaceRaises := false }

/-- Counterexample to claim C2 as stated: when the first execution attempt
raises `FileNotFoundError` and the triggered `pull_kithare` itself raises
(here its declared non-zip-response error), `run_kcr` aborts with the
pull's exception after a single execution attempt - zero re-executions,
not the claimed exactly one. -/
theorem run_kcr_pull_failure_counterexample :
    (run_kcr (fun _ => ExecOut.notFound) (fun _ => 0) false fetchFailOracle
        true 0).2.count RunEvent.execAttempt = 1 ∧
      (run_kcr (fun _ => ExecOut.notFound) (fun _ => 0) false fetchFailOracle
        true 0).1 = KcrResult.pullRaised PullResult.fetchFailed ∧
      (1 : ℕ) ≠ 2 := by
  have hpull : (pull_kithare false fetchFailOracle).1 = PullResult.fetchFailed :=
    rfl
  have hrun : run_kcr (fun _ => ExecOut.notFound) (fun _ => 0) false
      fetchFailOracle true 0 =
      (KcrResult.pullRaised PullResult.fetchFailed,
        [RunEvent.execAttempt, RunEvent.pullTriggered]) := by
    simp [run_kcr, hpull]
  rw [hrun]
  refine ⟨rfl, rfl, by decide⟩

/-- Claim C2, amended: when the first execution attempt of a default
(`recurse=True`) `run_kcr` raises `FileNotFoundError`, exactly one pull is
triggered and at most one re-execution is attempted: exactly one
re-execution when the pull returns normally - and if that re-execution
also raises `FileNotFoundError`, `run_kcr` fails with the declared
terminal "Could not execute Kithare command!" error, with no further pull
or retry - but zero re-executions when the pull itself raises, in which
case the pull's exception aborts `run_kcr`. -/
theorem run_kcr_retry_once_amended (execOut : ℕ → ExecOut)
    (pollTicks : ℕ → ℕ) (pullFlag : Bool) (po : PullOracle)
    (h0 : execOut 0 = ExecOut.notFound) :
    (run_kcr execOut pollTicks pullFlag po true 0).2.count
        RunEvent.pullTriggered = 1 ∧
      (run_kcr execOut pollTicks pullFlag po true 0).2.count
        RunEvent.execAttempt ≤ 2 ∧
      ((pull_kithare pullFlag po).1 = PullResult.ok →
        (run_kcr execOut pollTicks pullFlag po true 0).2.count
            RunEvent.execAttempt = 2 ∧
          (execOut 1 = ExecOut.notFound →
            (run_kcr execOut pollTicks pullFlag po true 0).1 =
              KcrResult.toolMissingError)) ∧
      ((pull_kithare pullFlag po).1 ≠ PullResult.ok →
        (run_kcr execOut pollTicks pullFlag po true 0).2.count
            RunEvent.execAttempt = 1 ∧
          (run_kcr execOut pollTicks pullFlag po true 0).1 =
            KcrResult.pullRaised (pull_kithare pullFlag po).1) := by
  by_cases hok : (pull_kithare pullFlag po).1 = PullResult.ok
  · have hsecond : (run_kcr execOut pollTicks pullFlag po false 1).2 =
        List.replicate (pollTicks 1) RunEvent.sleepPoll ++
          [RunEvent.execAttempt] := by
      cases hx : execOut 1 <;> simp [run_kcr, hx]
    have hmain : run_kcr execOut pollTicks pullFlag po true 0 =
        ((run_kcr execOut pollTicks pullFlag po false 1).1,
          List.replicate (pollTicks 0) RunEvent.sleepPoll ++
            [RunEvent.execAttempt, RunEvent.pullTriggered] ++
            (run_kcr execOut pollTicks pullFlag po false 1).2) := by
      simp [run_kcr, h0, hok]
    refine ⟨?_, ?_, fun _ => ⟨?_, ?_⟩, fun hne => absurd hok hne⟩
    · rw [hmain]
      simp [hsecond, List.count_append, List.count_replicate, List.count_cons]
    · rw [hmain]
      simp [hsecond, List.count_append, List.count_replicate, List.count_cons]
    · rw [hmain]
      simp [hsecond, List.count_append, List.count_replicate, List.count_cons]
    · intro h1
      rw [hmain]
      simp [run_kcr, h1]
  · have hmain : run_kcr execOut pollTicks pullFlag po true 0 =
        (KcrResult.pullRaised (pull_kithare pullFlag po).1,
          List.replicate (pollTicks 0) RunEvent.sleepPoll ++
            [RunEvent.execAttempt, RunEvent.pullTriggered]) := by
      simp [run_kcr, h0, hok]
    refine ⟨?_, ?_, fun hk => absurd hk hok, fun _ => ⟨?_, ?_⟩⟩
    · rw [hmain]
      simp [List.count_append, List.count_replicate, List.count_cons]
    · rw [hmain]
      simp [List.count_append, List.count_replicate, List.count_cons]
    · rw [hmain]
      simp [List.count_append, List.count_replicate, List.count_cons]
    · rw [hmain]

/-- Witness for the amended C2 at a concrete input: the binary is missing
on every attempt, no poll iterations occur, no pull is in flight, and the
pull oracle lets the pull complete normally. -/
theorem run_kcr_retry_once_amended_witness :
    (run_kcr (fun _ => ExecOut.notFound) (fun _ => 0) false okPullOracle
        true 0).2.count RunEvent.pullTriggered = 1 ∧
      (run_kcr (fun _ => ExecOut.notFound) (fun _ => 0) false okPullOracle
        true 0).2.count RunEvent.execAttempt ≤ 2 ∧
      ((pull_kithare false okPullOracle).1 = PullResult.ok →
        (run_kcr (fun _ => ExecOut.notFound) (fun _ => 0) false okPullOracle
            true 0).2.count RunEvent.execAttempt = 2 ∧
          ((fun _ : ℕ => ExecOut.notFound) 1 = ExecOut.notFound →
            (run_kcr (fun _ => ExecOut.notFound) (fun _ => 0) false
              okPullOracle true 0).1 = KcrResult.toolMissingError)) ∧
      ((pull_kithare false okPullOracle).1 ≠ PullResult.ok →
        (run_kcr (fun _ => ExecOut.notFound) (fun _ => 0) false okPullOracle
            true 0).2.count RunEvent.execAttempt = 1 ∧
          (run_kcr (fun _ => ExecOut.notFound) (fun _ => 0) false
            okPullOracle true 0).1 =
            KcrResult.pullRaised (pull_kithare false okPullOracle).1) :=
  run_kcr_retry_once_amended (fun _ => ExecOut.notFound) (fun _ => 0) false
    okPullOracle rfl

/-! ## C7 and C8: the overload dispatcher `handle`
(src/Kithscord/commands.py, lines 12-67) and `AdminCommand.cmd_stop`
(src/kithscord/commands/admin.py, lines 101-116)

The dispatcher's registries map a command name to its overload set: a
finite map from accepted argument count (`-1` marking a variadic handler)
to the handler.  Handlers are modelled by their observable behaviour:
return normally or raise an exception of some Python class.  The
`try`/`except Exception` boundary catches exactly the `Exception`
subclasses; `SystemExit` and `KeyboardInterrupt` derive `BaseException`
directly and propagate. -/

/-- Python exception classes relevant to the dispatch boundary. -/
inductive PyExcCls
  | botException
  | runtimeError
  | otherException
  | systemExit (code : ℕ)
  | keyboardInterrupt
deriving DecidableEq

/-- Whether the class is a subclass of `Exception` (caught by
`except Exception`).  `SystemExit` and `KeyboardInterrupt` derive
`BaseException` directly. -/
def isSubclassOfException : PyExcCls → Bool
  | .systemExit _ => false
  | .keyboardInterrupt => false
  | _ => true

/-- Observable behaviour of one handler invocation. -/
inductive HandlerBeh
  | returns
  | raises (e : PyExcCls)
deriving DecidableEq

/-- An overload set: accepted argument count (`-1` = variadic) paired with
the handler's behaviour. -/
abbrev Overloads := List (ℤ × HandlerBeh)

/-- A command registry (`user_cmds` / `admin_cmds`): name to overload
set. -/
abbrev CmdRegistry := List (String × Overloads)

/-- Python dict lookup `reg[name]` guarded by `name in reg`. -/
def lookupCmd (reg : CmdRegistry) (name : String) : Option Overloads :=
  (reg.find? (fun p => p.1 = name)).map (fun p => p.2)

/-- The source's overload selection:
`-1 if -1 in overloads else arg_length if arg_length in overloads else -2`. -/
def lengOf (ovs : Overloads) (argLength : ℤ) : ℤ :=
  if ovs.any (fun p => p.1 = -1) then -1
  else if ovs.any (fun p => p.1 = argLength) then argLength
  else -2

/-- `overloads[leng]` (only consulted when the key is present). -/
def behaviorAt (ovs : Overloads) (leng : ℤ) : HandlerBeh :=
  ((ovs.find? (fun p => p.1 = leng)).map (fun p => p.2)).getD .returns

/-- Outcome of the dispatch logic inside the `try:` block. -/
inductive InnerOutcome
  | handledAdmin (cmd : String) (leng : ℤ)
  | handledUser (cmd : String) (leng : ℤ)
  | arityErrorEmbed
  | unrecognizedEmbed
  | raisedFromHandler (e : PyExcCls)
deriving DecidableEq

/-- The `if args[0] in user_cmds: ... else: "Unrecognized command!"` part
of the dispatcher (reached directly, or by falling through from a
non-matching admin branch). -/
def handleUserBranch (userCmds : CmdRegistry) (cmdName : String)
    (argLength : ℤ) : InnerOutcome :=
  match lookupCmd userCmds cmdName with
  | some ovs =>
    let leng := lengOf ovs argLength
    if leng ≠ -2 then
      match behaviorAt ovs leng with
      | .returns => .handledUser cmdName leng
      | .raises e => .raisedFromHandler e
    else .arityErrorEmbed
  | none => .unrecognizedEmbed

/-- The dispatch logic inside the `try:` block: the admin branch (guarded
by `is_admin and args[0] in admin_cmds`) invokes a matching overload and
returns; with no matching arity it falls through to the user branch. -/
def handleInner (adminCmds userCmds : CmdRegistry) (isAdmin : Bool)
    (cmdName : String) (argLength : ℤ) : InnerOutcome :=
  if isAdmin then
    match lookupCmd adminCmds cmdName with
    | some ovs =>
      let leng := lengOf ovs argLength
      if leng ≠ -2 then
        match behaviorAt ovs leng with
        | .returns => .handledAdmin cmdName leng
        | .raises e => .raisedFromHandler e
      else handleUserBranch userCmds cmdName argLength
    | none => handleUserBranch userCmds cmdName argLength
  else handleUserBranch userCmds cmdName argLength

/-- Result of one `handle` call. -/
inductive HandleOutcome
  | noInvocation
  | handled (admin : Bool) (cmd : String) (leng : ℤ)
  | arityErrorEmbed
  | unrecognizedEmbed
  | tracebackEmbed (e : PyExcCls)
  | uncaught (e : PyExcCls)
deriving DecidableEq

/-- `handle`: split the command string (`args`), compute
`arg_length = len(args) - 1` and `is_admin` from the invoker's roles,
return early on an empty invocation, run the dispatch inside
`try: ... except Exception:`, rendering any caught exception as an error
embed with the formatted traceback; exceptions outside the `Exception`
class propagate. -/
def handle (adminCmds userCmds : CmdRegistry) (roles adminRoles : List ℕ)
    (args : List String) : HandleOutcome :=
  let argLength : ℤ := (args.length : ℤ) - 1
  let isAdmin := roles.any (fun r => adminRoles.contains r)
  if argLength = -1 then .noInvocation
  else
    match handleInner adminCmds userCmds isAdmin (args.headD "") argLength with
    | .handledAdmin c l => .handled true c l
    | .handledUser c l => .handled false c l
    | .arityErrorEmbed => .arityErrorEmbed
    | .unrecognizedEmbed => .unrecognizedEmbed
    | .raisedFromHandler e =>
      if isSubclassOfException e then .tracebackEmbed e else .uncaught e

/-- `AdminCommand.cmd_stop`: edit the confirmation message, then raise
`SystemExit(int(no_restart))` via `sys.exit`.  Modelled as the title of
the edited embed paired with the raised exception class. -/
def cmd_stop (no_restart : Bool) : List Char × PyExcCls :=
  ((if no_restart then "Stopping bot..." else "Restarting bot...").data,
    PyExcCls.systemExit (if no_restart then 1 else 0))

theorem lengOf_no_match (ovs : Overloads) (argLength : ℤ)
    (h : ∀ p ∈ ovs, p.1 ≠ -1 ∧ p.1 ≠ argLength) : lengOf ovs argLength = -2 := by
  have h1 : ovs.any (fun p => decide (p.1 = -1)) = false := by
    simp only [List.any_eq_false, decide_eq_false_iff_not]
    exact fun p hp => by simpa using (h p hp).1
  have h2 : ovs.any (fun p => decide (p.1 = argLength)) = false := by
    simp only [List.any_eq_false, decide_eq_false_iff_not]
    exact fun p hp => by simpa using (h p hp).2
  unfold lengOf
  rw [h1, h2]
  simp

theorem handle_dispatch_eq (adminCmds userCmds : CmdRegistry)
    (roles adminRoles : List ℕ) (args : List String) (hne : args ≠ []) :
    handle adminCmds userCmds roles adminRoles args =
      match handleInner adminCmds userCmds
          (roles.any (fun r => adminRoles.contains r)) (args.headD "")
          ((args.length : ℤ) - 1) with
      | .handledAdmin c l => .handled true c l
      | .handledUser c l => .handled false c l
      | .arityErrorEmbed => .arityErrorEmbed
      | .unrecognizedEmbed => .unrecognizedEmbed
      | .raisedFromHandler e =>
        if isSubclassOfException e then .tracebackEmbed e else .uncaught e := by
  have hlen : ((args.length : ℤ) - 1) ≠ -1 := by
    cases args with
    | nil => exact absurd rfl hne
    | cons a as => simp only [List.length_cons]; push_cast; omega
  unfold handle
  rw [if_neg hlen]

/-- Counterexample to claim C7 as stated: a command registered only in the
admin registry with overload arities 0 and 2, invoked by an admin with
exactly 1 argument, invokes no handler but renders the
"Unrecognized command!" error, not the claimed
"Incorrect amount of argument(s)!" arity error, because the admin branch
has no arity-mismatch arm and control falls through to the user-registry
lookup. -/
theorem dispatch_arity_admin_counterexample :
    handle [("sudo", [((0 : ℤ), HandlerBeh.returns), (2, HandlerBeh.returns)])]
        [] [1] [1] ["sudo", "x"] = HandleOutcome.unrecognizedEmbed ∧
      HandleOutcome.unrecognizedEmbed ≠ HandleOutcome.arityErrorEmbed ∧
      (∀ b c l, HandleOutcome.unrecognizedEmbed ≠ HandleOutcome.handled b c l) :=
  ⟨rfl, by decide, fun b c l h => nomatch h⟩

/-- Claim C7, amended: for a command whose overload sets (in whichever
registries it appears) map only the argument counts 0 and 2, dispatching
an invocation with exactly 1 argument invokes no handler; if the command
is user-registered the result is the "Incorrect amount of argument(s)!"
arity error, but if it is not in the user registry (e.g. admin-only) the
result is the "Unrecognized command!" error instead. -/
theorem dispatch_arity_mismatch_amended (adminCmds userCmds : CmdRegistry)
    (roles adminRoles : List ℕ) (cmd arg : String)
    (hA : ∀ ovs, lookupCmd adminCmds cmd = some ovs →
      ∀ p ∈ ovs, p.1 = 0 ∨ p.1 = 2)
    (hU : ∀ ovs, lookupCmd userCmds cmd = some ovs →
      ∀ p ∈ ovs, p.1 = 0 ∨ p.1 = 2) :
    (∀ b c l, handle adminCmds userCmds roles adminRoles [cmd, arg] ≠
      HandleOutcome.handled b c l) ∧
      (lookupCmd userCmds cmd ≠ none →
        handle adminCmds userCmds roles adminRoles [cmd, arg] =
          HandleOutcome.arityErrorEmbed) ∧
      (lookupCmd userCmds cmd = none →
        handle adminCmds userCmds roles adminRoles [cmd, arg] =
          HandleOutcome.unrecognizedEmbed) := by
  have hargs : (([cmd, arg].length : ℤ) - 1) = 1 := by
    norm_num
  have huser : handleUserBranch userCmds cmd 1 =
      match lookupCmd userCmds cmd with
      | some _ => InnerOutcome.arityErrorEmbed
      | none => InnerOutcome.unrecognizedEmbed := by
    unfold handleUserBranch
    cases hu : lookupCmd userCmds cmd with
    | none => rfl
    | some ovs =>
      have hleng : lengOf ovs 1 = -2 := by
        apply lengOf_no_match
        intro p hp
        rcases hU ovs hu p hp with h | h <;> constructor <;> omega
      simp [hleng]
  have hinner : handleInner adminCmds userCmds
      ((roles.any (fun r => adminRoles.contains r))) cmd 1 =
      handleUserBranch userCmds cmd 1 := by
    unfold handleInner
    cases roles.any (fun r => adminRoles.contains r) with
    | false => simp
    | true =>
      simp only [if_pos]
      cases hl : lookupCmd adminCmds cmd with
      | none => simp
      | some ovs =>
        have hleng : lengOf ovs 1 = -2 := by
          apply lengOf_no_match
          intro p hp
          rcases hA ovs hl p hp with h | h <;> constructor <;> omega
        simp [hleng]
  have hmain := handle_dispatch_eq adminCmds userCmds roles adminRoles
    [cmd, arg] (by simp)
  rw [hargs] at hmain
  simp only [List.headD_cons] at hmain
  rw [hinner, huser] at hmain
  refine ⟨?_, ?_, ?_⟩
  · intro b c l
    rw [hmain]
    cases hu : lookupCmd userCmds cmd <;> simp
  · intro hu
    rw [hmain]
    cases hu2 : lookupCmd userCmds cmd with
    | none => exact absurd hu2 hu
    | some ovs => rfl
  · intro hu
    rw [hmain, hu]

/-- Witness for the amended C7 at a concrete input: the user-registered
command `y` with overload arities 0 and 2, called with 1 argument. -/
theorem dispatch_arity_mismatch_amended_witness :
    (∀ b c l, handle [] [("y", [((0 : ℤ), HandlerBeh.returns),
        (2, HandlerBeh.returns)])] [] [] ["y", "a"] ≠
      HandleOutcome.handled b c l) ∧
      (lookupCmd [("y", [((0 : ℤ), HandlerBeh.returns),
          (2, HandlerBeh.returns)])] "y" ≠ none →
        handle [] [("y", [((0 : ℤ), HandlerBeh.returns),
          (2, HandlerBeh.returns)])] [] [] ["y", "a"] =
          HandleOutcome.arityErrorEmbed) ∧
      (lookupCmd [("y", [((0 : ℤ), HandlerBeh.returns),
          (2, HandlerBeh.returns)])] "y" = none →
        handle [] [("y", [((0 : ℤ), HandlerBeh.returns),
          (2, HandlerBeh.returns)])] [] [] ["y", "a"] =
          HandleOutcome.unrecognizedEmbed) :=
  dispatch_arity_mismatch_amended [] [("y", [((0 : ℤ), HandlerBeh.returns),
      (2, HandlerBeh.returns)])] [] [] "y" "a"
    (fun ovs h => nomatch h)
    (fun ovs h => by
      have hovs : ovs = [((0 : ℤ), HandlerBeh.returns), (2, HandlerBeh.returns)] := by
        have h2 : (some [((0 : ℤ), HandlerBeh.returns), (2, HandlerBeh.returns)] :
            Option Overloads) = some ovs := h ▸ rfl
        exact (Option.some.inj h2).symm
      subst hovs
      decide)

/-- Claim C8: an exception from an invoked handler that is a subclass of
`Exception` is caught at the dispatch boundary and rendered as the
traceback error embed - it never propagates; an exception outside the
`Exception` class (in particular the `SystemExit` that `cmd_stop` raises
via `sys.exit` after editing its confirmation message) is not caught and
terminates the process. -/
theorem dispatch_fault_boundary (adminCmds userCmds : CmdRegistry)
    (roles adminRoles : List ℕ) (args : List String) (e : PyExcCls)
    (hne : args ≠ [])
    (hr : handleInner adminCmds userCmds
      (roles.any (fun r => adminRoles.contains r)) (args.headD "")
      ((args.length : ℤ) - 1) = InnerOutcome.raisedFromHandler e) :
    (isSubclassOfException e = true →
      handle adminCmds userCmds roles adminRoles args =
        HandleOutcome.tracebackEmbed e) ∧
      (isSubclassOfException e = false →
        handle adminCmds userCmds roles adminRoles args =
          HandleOutcome.uncaught e) ∧
      (∀ b : Bool, isSubclassOfException (cmd_stop b).2 = false) := by
  have hmain := handle_dispatch_eq adminCmds userCmds roles adminRoles args hne
  rw [hr] at hmain
  refine ⟨?_, ?_, ?_⟩
  · intro hsub
    rw [hmain]
    simp [hsub]
  · intro hsub
    rw [hmain]
    simp [hsub]
  · intro b
    cases b <;> rfl

/-- Witness for C8 at a concrete input: a user command whose handler
raises the `SystemExit(1)` of `cmd_stop True`. -/
theorem dispatch_fault_boundary_witness :
    (isSubclassOfException (PyExcCls.systemExit 1) = true →
      handle [] [("stop", [((0 : ℤ),
          HandlerBeh.raises (PyExcCls.systemExit 1))])] [] [] ["stop"] =
        HandleOutcome.tracebackEmbed (PyExcCls.systemExit 1)) ∧
      (isSubclassOfException (PyExcCls.systemExit 1) = false →
        handle [] [("stop", [((0 : ℤ),
            HandlerBeh.raises (PyExcCls.systemExit 1))])] [] [] ["stop"] =
          HandleOutcome.uncaught (PyExcCls.systemExit 1)) ∧
      (∀ b : Bool, isSubclassOfException (cmd_stop b).2 = false) :=
  dispatch_fault_boundary [] [("stop", [((0 : ℤ),
      HandlerBeh.raises (PyExcCls.systemExit 1))])] [] [] ["stop"]
    (PyExcCls.systemExit 1) (by simp) rfl
